import Mathlib

/-!
Verification development for the ec2-action-builder provisioning engine.

The TypeScript sources are shallowly embedded as Lean definitions:

* pure helpers (strategy resolution, string case mapping) become Lean
  functions on `String`;
* provider and registration-service calls (AWS EC2, GitHub API) are
  modelled as oracle inputs threaded through environment structures, with
  failures represented by `Except JsError`;
* the acquisition loop, readiness-poll loop and teardown flow are embedded
  as explicit recursive functions; the two loops whose iteration counts are
  data-dependent are given an explicit fuel argument, with fuel chosen
  to match the bound the source enforces.

Prices are modelled as rationals (the source works with JS numbers; the
claims under study only involve ordering comparisons, no NaN arithmetic).
-/

namespace EC2AB

/-- Model of the JS `toLocaleUpperCase` on the ASCII range: each character
in the lowercase letter range 97..122 is shifted down by 32. The strategy
strings the program manipulates are all ASCII. -/
def jsCharToUpper (c : Char) : Char :=
  if 97 ≤ c.toNat ∧ c.toNat ≤ 122 then Char.ofNat (c.toNat - 32) else c

/-- Model of the JS `toLowerCase` on the ASCII range. -/
def jsCharToLower (c : Char) : Char :=
  if 65 ≤ c.toNat ∧ c.toNat ≤ 90 then Char.ofNat (c.toNat + 32) else c

/-- Uppercase a string character by character (JS `toLocaleUpperCase`). -/
def jsToUpper (s : String) : String :=
  ⟨s.data.map jsCharToUpper⟩

/-- Lowercase a string character by character (JS `toLowerCase`). -/
def jsToLower (s : String) : String :=
  ⟨s.data.map jsCharToLower⟩

/-- A thrown JS error: an optional provider error `code` property plus a
message. `runInstances` failures carry the AWS error code here. -/
structure JsError where
  code : Option String
  message : String
deriving DecidableEq, Repr

/-- Strategy resolution from `start` (src/unnamed/part_000, lines 23-45):
the switch on `config.ec2SpotInstanceStrategy` producing the ordered
fallback list `ec2SpotStrategies`. -/
def resolveStrategies (ec2SpotInstanceStrategy : String) : List String :=
  if ec2SpotInstanceStrategy = "maxperformance" then
    ["MaxPerformance", "SpotOnly"]
  else if ec2SpotInstanceStrategy = "besteffort" then
    ["BestEffort", "none"]
  else
    [ec2SpotInstanceStrategy]

/-- Does `l` start with `p`? Helper for the substring test below. -/
def charListHasPrefixAux : List Char → List Char → Bool
  | [], _ => true
  | _ :: _, [] => false
  | p :: ps, c :: cs => p == c && charListHasPrefixAux ps cs

/-- Does `l` contain `pat` as a contiguous sublist? -/
def charListContainsAux (pat : List Char) : List Char → Bool
  | [] => charListHasPrefixAux pat []
  | c :: cs => charListHasPrefixAux pat (c :: cs) || charListContainsAux pat cs

/-- Model of the JS `String.prototype.includes`. -/
def jsIncludes (s pat : String) : Bool :=
  charListContainsAux pat.data s.data

/-- One catalog entry returned by `describeInstanceTypes` and kept by
`getInstanceSizesForType`: instance type name and its default core count. -/
structure SizeEntry where
  name : String
  vcpu : Nat
deriving DecidableEq, Repr

/-- Stable ascending insertion by vcpu: a model of lodash
`_.orderBy(instanceTypesList, "vcpu")` (stable, ascending). -/
def insertByVcpu (x : SizeEntry) : List SizeEntry → List SizeEntry
  | [] => [x]
  | y :: ys => if x.vcpu < y.vcpu then x :: y :: ys else y :: insertByVcpu x ys

/-- Sort the catalog by vcpu ascending, stably, as
`getInstanceSizesForType` does on the drained provider pages. -/
def orderByVcpu : List SizeEntry → List SizeEntry
  | [] => []
  | x :: xs => insertByVcpu x (orderByVcpu xs)

/-- Model of the JS `Array.prototype.indexOf`: index of the first
occurrence, or -1 when absent. -/
def jsIndexOf (l : List String) (x : String) : Int :=
  match l.findIdx? (fun y => y == x) with
  | some i => (i : Int)
  | none => -1

/-- The environment of provider and pricing oracles consumed by the
instance-configuration builder and the size optimizer. The provider and
pricing APIs are external collaborators; each field models the value one
of the source calls returns for a given argument. -/
structure Ec2Env where
  /-- `config.ec2InstanceType`, the configured baseline size. -/
  ec2InstanceType : String
  /-- `Ec2Pricing.getPriceForInstanceTypeUSD`: current on-demand price. -/
  onDemandPriceUSD : String → ℚ
  /-- `getSpotInstancePrice`: latest spot quote in the subnet zone. -/
  spotPrice : String → ℚ
  /-- the drained `describeInstanceTypes` pages for the instance family
  (bare-metal variants already excluded by the provider-side filter). -/
  sizes : List SizeEntry

/-- `getNextLargerInstanceType` (src/src/ec2/userdata.ts, lines 266-283):
sort the family catalog, drop names containing "metal", and take the entry
after the current one (or the current entry when it is already last).
Returns `none` where the source would crash indexing with -1. -/
def getNextLargerInstanceType (sizes : List SizeEntry) (instanceType : String) : Option String :=
  let instanceTypeList := (orderByVcpu sizes).filter (fun item => !(jsIncludes item.name "metal"))
  let currentInstanceTypeIndex := jsIndexOf (instanceTypeList.map (fun e => e.name)) instanceType
  let nextInstanceTypeIndex :=
    if currentInstanceTypeIndex + 1 < (instanceTypeList.length : Int) then
      currentInstanceTypeIndex + 1
    else currentInstanceTypeIndex
  if nextInstanceTypeIndex < 0 then none
  else (instanceTypeList.get? nextInstanceTypeIndex.toNat).map (fun e => e.name)

/-- The do-while loop body of `bestSpotSizeForOnDemandPrice`
(src/src/ec2/userdata.ts, lines 293-308), with explicit fuel. Each
iteration looks up the next larger size of the current best and adopts it
exactly when its spot price is positive and below the fixed baseline
on-demand price; the loop exits when the best size did not change. `none`
marks a crash in `getNextLargerInstanceType` or fuel exhaustion (the
source loop would spin forever only on a catalog with duplicated names). -/
def bestSpotSizeGo (env : Ec2Env) (currentOnDemandPrice : ℚ) : Nat → String → Option String
  | 0, _ => none
  | fuel + 1, bestInstanceType =>
    match getNextLargerInstanceType env.sizes bestInstanceType with
    | none => none
    | some nextLargerInstance =>
      let spotPriceForLargerInstance := env.spotPrice nextLargerInstance
      let newBest :=
        if 0 < spotPriceForLargerInstance ∧ currentOnDemandPrice > spotPriceForLargerInstance then
          nextLargerInstance
        else bestInstanceType
      if newBest = bestInstanceType then some newBest
      else bestSpotSizeGo env currentOnDemandPrice fuel newBest

/-- `bestSpotSizeForOnDemandPrice` (src/src/ec2/userdata.ts, lines
285-311): fix the baseline on-demand price of the configured size, then
walk upward from the configured size. Fuel `sizes.length + 1` covers every
terminating run of the source loop on a duplicate-free catalog. -/
def bestSpotSizeForOnDemandPrice (env : Ec2Env) : Option String :=
  bestSpotSizeGo env (env.onDemandPriceUSD env.ec2InstanceType)
    (env.sizes.length + 1) env.ec2InstanceType

/-- The `SpotOptions` block of the launch parameters. The source writes
`MaxPrice` as the decimal rendering of the number; the model keeps the
numeric value. -/
structure SpotOptions where
  instanceInterruptionBehavior : String
  maxPrice : ℚ
  spotInstanceType : String
deriving DecidableEq, Repr

/-- `InstanceMarketOptions`: either the empty object (on-demand) or a spot
block. -/
inductive MarketOptions where
  | empty : MarketOptions
  | spot (options : SpotOptions) : MarketOptions
deriving DecidableEq, Repr

/-- Whether the market options request the spot market. -/
def MarketOptions.isSpot : MarketOptions → Bool
  | .empty => false
  | .spot _ => true

/-- The strategy-dependent part of the launch parameters built by
`getInstanceConfiguration`. The remaining fields (image, subnet, security
group, key, tags, block devices, user data) are strategy-independent
constants copied from configuration and are not consulted by any claim. -/
structure Ec2Params where
  instanceType : String
  instanceMarketOptions : MarketOptions
deriving DecidableEq, Repr

/-- `getInstanceConfiguration` (src/src/ec2/userdata.ts, lines 313-408):
the switch on the lowercased strategy name that customizes the market
options of the shared base parameters. -/
def getInstanceConfiguration (env : Ec2Env) (ec2SpotInstanceStrategy : String) :
    Except JsError Ec2Params :=
  let currentInstanceTypePrice := env.onDemandPriceUSD env.ec2InstanceType
  let base : Ec2Params :=
    { instanceType := env.ec2InstanceType, instanceMarketOptions := .empty }
  let strat := jsToLower ec2SpotInstanceStrategy
  if strat = "spotonly" then
    .ok { base with instanceMarketOptions := .spot (
      { instanceInterruptionBehavior := "terminate"
        maxPrice := env.spotPrice env.ec2InstanceType
        spotInstanceType := "one-time" }) }
  else if strat = "besteffort" then
    let spotInstanceTypePrice := env.spotPrice env.ec2InstanceType
    -- the source guards on JS truthiness of the on-demand price before
    -- comparing: `currentInstanceTypePrice && spot < current`
    if currentInstanceTypePrice ≠ 0 ∧ spotInstanceTypePrice < currentInstanceTypePrice then
      .ok { base with instanceMarketOptions := .spot (
        { instanceInterruptionBehavior := "terminate"
          maxPrice := currentInstanceTypePrice
          spotInstanceType := "one-time" }) }
    else .ok base
  else if strat = "maxperformance" then
    match bestSpotSizeForOnDemandPrice env with
    | none => .error { code := none, message := "TypeError" }
    | some upgradedType =>
      .ok { instanceType := upgradedType, instanceMarketOptions := .spot (
        { instanceInterruptionBehavior := "terminate"
          maxPrice := currentInstanceTypePrice
          spotInstanceType := "one-time" }) }
  else if strat = "none" then
    .ok base
  else
    .error { code := none, message := "Invalid value for ec2_spot_instance_strategy" }

/-- A self-hosted runner registration as returned by the registration
service: identifier, name, status string and the names of its labels. -/
structure Runner where
  id : Nat
  name : String
  status : String
  labels : List String
deriving DecidableEq, Repr

/-- The lodash label filter of `getRunnersWithLabels`
(src/src/github/github.ts, lines 40-47): a runner matches when every
requested label name occurs among its labels (partial, order-insensitive
array match). -/
def runnerMatchesLabels (labels : List String) (runner : Runner) : Bool :=
  labels.all (fun label => runner.labels.contains label)

/-- `getRunnersWithLabels` applied to a successfully listed runner page:
filter the repository runners by the requested labels. -/
def getRunnersWithLabels (allRunners : List Runner) (labels : List String) : List Runner :=
  allRunners.filter (runnerMatchesLabels labels)

/-- `timeoutMinutes` from `pollForRunnerCreation`. -/
def timeoutMinutes : Nat := 5

/-- `retryIntervalSeconds` from `pollForRunnerCreation`. -/
def retryIntervalSeconds : Nat := 10

/-- `quietPeriodSeconds` from `pollForRunnerCreation`. -/
def quietPeriodSeconds : Nat := 30

/-- Seconds on the wall clock at which poll tick `t` issues its
registration check: the poller first sleeps the quiet period, then the
interval timer fires once per `retryIntervalSeconds`, the first time one
full interval after being installed. -/
def tickCheckTimeSeconds (tick : Nat) : Nat :=
  quietPeriodSeconds + (tick + 1) * retryIntervalSeconds

/-- Outcome of the readiness poll: the promise resolves on the tick that
saw an online runner, or rejects with the timeout message. `fuelOut` is a
model artifact marking fuel exhaustion and is unreachable for the fuel
used below. -/
inductive PollResult where
  | ready (tick : Nat) : PollResult
  | timeout : PollResult
  | fuelOut : PollResult
deriving DecidableEq, Repr

/-- Does any runner listed at this tick that carries the requested labels
report the online status? One online match suffices; the loop in the
source resolves on the first such runner. -/
def tickSeesOnlineRunner (runnersAt : Nat → List Runner) (labels : List String) (tick : Nat) : Bool :=
  (getRunnersWithLabels (runnersAt tick) labels).any (fun runner => runner.status == "online")

/-- The interval callback of `pollForRunnerCreation`
(src/src/github/github.ts, lines 106-127), iterated with fuel. Each tick
first rejects when the accumulated wait exceeds `timeoutMinutes * 60`
seconds, otherwise resolves when some correctly-labelled runner is online,
otherwise accumulates `retryIntervalSeconds` and waits for the next tick.
`runnersAt t` is the listing the service returns at tick `t`. -/
def pollTicks (runnersAt : Nat → List Runner) (labels : List String) :
    Nat → Nat → Nat → PollResult
  | 0, _, _ => .fuelOut
  | fuel + 1, waitSeconds, tick =>
    if waitSeconds > timeoutMinutes * 60 then .timeout
    else if tickSeesOnlineRunner runnersAt labels tick then .ready tick
    else pollTicks runnersAt labels fuel (waitSeconds + retryIntervalSeconds) (tick + 1)

/-- Fuel that strictly dominates the number of ticks the source loop can
execute before rejecting: the wait counter reaches the ceiling after at
most `timeoutMinutes * 60 / retryIntervalSeconds + 1` increments. -/
def pollFuel : Nat := timeoutMinutes * 60 / retryIntervalSeconds + 2

/-- `pollForRunnerCreation` (src/src/github/github.ts, lines 95-129):
quiet period, then the bounded polling loop starting with zero accumulated
wait at tick 0. -/
def pollForRunnerCreation (runnersAt : Nat → List Runner) (labels : List String) : PollResult :=
  pollTicks runnersAt labels pollFuel 0 0

/-- Outcome of one `deleteSelfHostedRunnerFromRepo` call: an HTTP response
status, or a thrown error. -/
inductive DeleteOutcome where
  | resp (status : Nat) : DeleteOutcome
  | raise (e : JsError) : DeleteOutcome
deriving DecidableEq, Repr

/-- The deletion loop of `removeRunnersWithLabels`
(src/src/github/github.ts, lines 79-87): fold the matched runners,
conjoining `status == 204` into the accumulator; a raised deletion error
is caught by the surrounding handler, which abandons the rest of the loop
and leaves the accumulator as it stood. -/
def deleteLoop (deleteRunner : Nat → DeleteOutcome) : Bool → List Runner → Bool
  | deletedAll, [] => deletedAll
  | deletedAll, runner :: rest =>
    match deleteRunner runner.id with
    | .resp status => deleteLoop deleteRunner (deletedAll && status == 204) rest
    | .raise _ => deletedAll

/-- Environment of `removeRunnersWithLabels`: the raw runner listing (or
the error the listing throws), the label filter, and the per-runner
deletion outcomes. -/
structure RemoveEnv where
  listRunners : Except JsError (List Runner)
  labels : List String
  deleteRunner : Nat → DeleteOutcome

/-- The matched runners the deletion loop iterates: empty when listing
throws, otherwise the label-filtered listing. -/
def matchedRunners (env : RemoveEnv) : List Runner :=
  match env.listRunners with
  | .error _ => []
  | .ok raw => getRunnersWithLabels raw env.labels

/-- `removeRunnersWithLabels` (src/src/github/github.ts, lines 73-92):
`deletedAll` starts true; a listing error is caught before any deletion
runs, so the call still returns the initial true. -/
def removeRunnersWithLabels (env : RemoveEnv) : Bool :=
  match env.listRunners with
  | .error _ => true
  | .ok raw => deleteLoop env.deleteRunner true (getRunnersWithLabels raw env.labels)

/-- An instance record as seen through `describeInstances`: the
provider-assigned identifier and the lifecycle state name (`State?.Name`),
both optional fields of the AWS response. -/
structure InstanceRec where
  instanceId : Option String
  state : Option String
deriving DecidableEq, Repr

/-- Outcome of one `runInstances` call: the (optional) `Instances` array
of the response, each entry carrying an optional `InstanceId`, or a thrown
error. -/
inductive RunResult where
  | ok (instances : Option (List (Option String))) : RunResult
  | err (e : JsError) : RunResult
deriving DecidableEq, Repr

/-- The truthiness check `response?.length && response.length > 0 &&
response[0].InstanceId` of `start`: the identifier of the first returned
instance when the response is non-empty and the identifier is a truthy
(non-empty) string. -/
def firstInstanceId : Option (List (Option String)) → Option String
  | some (some id :: _) => if id = "" then none else some id
  | _ => none

/-- Environment of the `start` orchestrator. Each field models the value
or outcome one of the collaborator calls yields; `buildConfig` stands for
`getInstanceConfiguration` (whose errors are thrown outside the
try/catch of the acquisition loop) and `launch` for `runInstances`
(whose errors are thrown inside it). -/
structure StartEnv where
  ec2SpotInstanceStrategy : String
  githubJobId : String
  /-- `getInstancesForTags` result for the Job Identity tag. -/
  instances : List InstanceRec
  /-- `getInstanceConfiguration` outcome per strategy name. -/
  buildConfig : String → Except JsError Ec2Params
  /-- `runInstances` outcome per strategy name. -/
  launch : String → RunResult
  /-- `waitForInstanceRunningStatus` outcome per instance identifier. -/
  waitRunning : String → Except JsError Unit
  /-- registration listing per poll tick. -/
  runnersAt : Nat → List Runner

/-- Result of running `start`: which strategies had a launch call issued,
whether the readiness poller was reached, and the overall outcome. -/
structure StartTrace where
  attempts : List String
  polled : Bool
  result : Except JsError Unit
deriving Repr

/-- The acquisition loop of `start` (src/unnamed/part_000, lines 58-83):
for each strategy, build the configuration (errors abort immediately:
this call is outside the try), issue the launch and either capture the
first instance identifier, absorb the error and fall through to the next
strategy when the error code is `InsufficientInstanceCapacity`, the full
strategy list is non-empty and the uppercased strategy name differs from
the lowercase literal "none", or rethrow. Returns the captured identifier
(or `none` when the loop exhausts) and the strategies launched. -/
def acquireLoop (env : StartEnv) (ec2SpotStrategies : List String) :
    List String → Except JsError (Option String) × List String
  | [] => (.ok none, [])
  | ec2Strategy :: rest =>
    match env.buildConfig ec2Strategy with
    | .error e => (.error e, [])
    | .ok _ =>
      match env.launch ec2Strategy with
      | .ok response =>
        match firstInstanceId response with
        | some id => (.ok (some id), [ec2Strategy])
        | none =>
          let (r, attempted) := acquireLoop env ec2SpotStrategies rest
          (r, ec2Strategy :: attempted)
      | .err e =>
        if e.code = some "InsufficientInstanceCapacity" ∧
            0 < ec2SpotStrategies.length ∧
            jsToUpper ec2Strategy ≠ "none" then
          let (r, attempted) := acquireLoop env ec2SpotStrategies rest
          (r, ec2Strategy :: attempted)
        else (.error e, [ec2Strategy])

/-- The readiness poll as `start` and the reuse path consume it: resolve
becomes success, the timeout rejection becomes a thrown error. -/
def pollOutcome (env : StartEnv) : Except JsError Unit :=
  match pollForRunnerCreation env.runnersAt [env.githubJobId] with
  | .ready _ => .ok ()
  | .timeout => .error { code := none, message :=
      "A timeout of 5 minutes is exceeded. Please ensure your EC2 instance has access to the Internet." }
  | .fuelOut => .error { code := none, message := "poll loop diverged" }

/-- `start` on the start subaction (src/unnamed/part_000, lines 20-93):
strategy resolution, the tag-based inventory check that short-circuits to
readiness polling when a running instance already exists, the acquisition
loop, the wait for running state, and the readiness poll. -/
def startModel (env : StartEnv) : StartTrace :=
  let ec2SpotStrategies := resolveStrategies env.ec2SpotInstanceStrategy
  let hasInstance :=
    0 < (env.instances.filter (fun i => i.state == some "running")).length
  if hasInstance then
    { attempts := [], polled := true, result := pollOutcome env }
  else
    match acquireLoop env ec2SpotStrategies ec2SpotStrategies with
    | (.error e, attempted) =>
      { attempts := attempted, polled := false, result := .error e }
    | (.ok none, attempted) =>
      { attempts := attempted, polled := false,
        result := .error { code := none, message := "Failed to get ID of running instance" } }
    | (.ok (some instanceId), attempted) =>
      match env.waitRunning instanceId with
      | .error e => { attempts := attempted, polled := false, result := .error e }
      | .ok _ => { attempts := attempted, polled := true, result := pollOutcome env }

/-- `terminateInstances` (src/src/ec2/userdata.ts, lines 464-477): an
empty identifier list returns before any client call; otherwise the
provider call is issued and its error rethrown. The boolean records
whether the provider call was issued. -/
def terminateInstances (terminateCall : List String → Except JsError Unit)
    (instanceIds : List String) : Except JsError Unit × Bool :=
  if instanceIds.length = 0 then (.ok (), false)
  else (terminateCall instanceIds, true)

/-- Environment of the `stop` teardown flow. -/
structure StopEnv where
  githubJobId : String
  /-- `getInstancesForTags` outcome. -/
  getInstances : Except JsError (List InstanceRec)
  /-- the provider `terminateInstances` call. -/
  terminateCall : List String → Except JsError Unit
  /-- the raw runner listing (or its thrown error). -/
  listRunners : Except JsError (List Runner)
  /-- per-runner deletion outcomes. -/
  deleteRunner : Nat → DeleteOutcome

/-- The body of `stop` inside its try block (src/unnamed/part_000, lines
98-112): inventory lookup, termination of the mapped identifiers (the
source applies a non-null assertion to each `InstanceId`; an absent
identifier becomes the JS `undefined`, rendered here as a placeholder
string), runner cleanup, and a thrown error when cleanup reports failure. -/
def stopBody (env : StopEnv) : Except JsError Unit :=
  match env.getInstances with
  | .error e => .error e
  | .ok instances =>
    match (terminateInstances env.terminateCall
        (instances.map (fun i => i.instanceId.getD "undefined"))).1 with
    | .error e => .error e
    | .ok _ =>
      if removeRunnersWithLabels
          { listRunners := env.listRunners, labels := [env.githubJobId],
            deleteRunner := env.deleteRunner } then
        .ok ()
      else
        .error { code := none, message :=
          "Failed to cleanup runners. Continuing, but failure expected!" }

/-- `stop` (src/unnamed/part_000, lines 96-116): the whole body runs
inside a try/catch whose handler only logs, so every error is swallowed. -/
def stopModel (env : StopEnv) : Except JsError Unit :=
  match stopBody env with
  | .ok _ => .ok ()
  | .error _ => .ok ()

/-- Modelled from the spec wording of claim C10, for comparison with the
code: the deletions the call *attempted*, that is, the matched runners up
to and including the first one whose deletion call raised. -/
def attemptedDeletions (deleteRunner : Nat → DeleteOutcome) : List Runner → List Runner
  | [] => []
  | runner :: rest =>
    match deleteRunner runner.id with
    | .resp _ => runner :: attemptedDeletions deleteRunner rest
    | .raise _ => [runner]

/-- The matched runners whose deletion call *completed* with a response:
the prefix strictly before the first raising call. -/
def completedDeletions (deleteRunner : Nat → DeleteOutcome) : List Runner → List Runner
  | [] => []
  | runner :: rest =>
    match deleteRunner runner.id with
    | .resp _ => runner :: completedDeletions deleteRunner rest
    | .raise _ => []

/-- Did the deletion of this runner succeed? A deletion succeeds when the
call returns status 204; a raising call did not succeed. -/
def deletionSucceeded (deleteRunner : Nat → DeleteOutcome) (runner : Runner) : Bool :=
  match deleteRunner runner.id with
  | .resp status => status == 204
  | .raise _ => false

/-- Claim C10 as stated, over the embedded code: the boolean result of
`removeRunnersWithLabels` is true exactly when every deletion the call
attempted succeeded. -/
def claimC10Property (env : RemoveEnv) : Prop :=
  removeRunnersWithLabels env = true ↔
    ∀ runner ∈ attemptedDeletions env.deleteRunner (matchedRunners env),
      deletionSucceeded env.deleteRunner runner = true

/-- Concrete environment refuting claim C10 as stated: one matched runner
whose deletion call raises. -/
def c10CounterEnv : RemoveEnv where
  listRunners := .ok [{ id := 1, name := "runner-1", status := "online", labels := ["job-1"] }]
  labels := ["job-1"]
  deleteRunner := fun _ => .raise { code := none, message := "deletion failed" }

/-- Concrete environment for claim C1: the besteffort fallback list ends
in the strategy literal "none", and every launch raises the capacity
error. -/
def c1Env : StartEnv where
  ec2SpotInstanceStrategy := "besteffort"
  githubJobId := "job-1"
  instances := []
  buildConfig := fun _ => .ok { instanceType := "t3.large", instanceMarketOptions := .empty }
  launch := fun _ => .err { code := some "InsufficientInstanceCapacity", message := "capacity" }
  waitRunning := fun _ => .ok ()
  runnersAt := fun _ => []

/-- Concrete pricing environment for the C3 witness: spot strictly below
on-demand. -/
def c3WitnessEnv : Ec2Env where
  ec2InstanceType := "t3.large"
  onDemandPriceUSD := fun _ => 1
  spotPrice := fun _ => mkRat 1 2
  sizes := []

/-- The size catalog of the C4 end-to-end scenario:
small(2 vcpu), medium(4 vcpu), large(8 vcpu). -/
def c4Catalog : List SizeEntry :=
  [{ name := "small", vcpu := 2 }, { name := "medium", vcpu := 4 }, { name := "large", vcpu := 8 }]

/-- The C4 end-to-end scenario environment: baseline size small with
on-demand price 1.00, spot prices medium = 0.60, large = 1.20. -/
def c4ScenarioEnv : Ec2Env where
  ec2InstanceType := "small"
  onDemandPriceUSD := fun size => if size = "small" then 1 else 0
  spotPrice := fun size =>
    if size = "medium" then mkRat 6 10 else if size = "large" then mkRat 12 10 else 0
  sizes := c4Catalog

/-- Environment for the C4 witness of the no-qualifying-upgrade clause:
the next larger size is priced above the baseline on-demand price. -/
def c4WitnessEnv : Ec2Env where
  ec2InstanceType := "small"
  onDemandPriceUSD := fun _ => 1
  spotPrice := fun _ => 5
  sizes := c4Catalog

/-- Concrete environment for the C5 witness: no existing instance, and
every strategy of the maxperformance list launches into the capacity
error. -/
def c5WitnessEnv : StartEnv where
  ec2SpotInstanceStrategy := "maxperformance"
  githubJobId := "job-5"
  instances := []
  buildConfig := fun _ => .ok { instanceType := "t3.large", instanceMarketOptions := .empty }
  launch := fun _ => .err { code := some "InsufficientInstanceCapacity", message := "capacity" }
  waitRunning := fun _ => .ok ()
  runnersAt := fun _ => []

/-- Concrete environment for the C6 witness: the inventory already holds a
running instance. -/
def c6WitnessEnv : StartEnv where
  ec2SpotInstanceStrategy := "spotonly"
  githubJobId := "job-6"
  instances := [{ instanceId := some "i-0abc", state := some "running" }]
  buildConfig := fun _ => .ok { instanceType := "t3.large", instanceMarketOptions := .empty }
  launch := fun _ => .err { code := none, message := "must not be called" }
  waitRunning := fun _ => .ok ()
  runnersAt := fun _ => [{ id := 7, name := "runner-7", status := "online", labels := ["job-6"] }]

/-- Tick-indexed listings for the C8 witness: the first two ticks expose
only an offline registration with the right label, tick 2 exposes an
online one. -/
def c8RunnersAt : Nat → List Runner := fun tick =>
  if tick < 2 then [{ id := 3, name := "runner-3", status := "offline", labels := ["job-8"] }]
  else [{ id := 3, name := "runner-3", status := "online", labels := ["job-8"] }]

/-- Concrete teardown environment with empty inventory and no matching
registrations; the provider termination call errs so the no-op clause is
observable. -/
def c9EmptyStopEnv : StopEnv where
  githubJobId := "job-9"
  getInstances := .ok []
  terminateCall := fun _ => .error { code := none, message := "must not be called" }
  listRunners := .ok []
  deleteRunner := fun _ => .raise { code := none, message := "must not be called" }

/-! ## Helper lemmas -/

/-- No ASCII uppercase code point renders as the lowercase letter n. -/
theorem charOfNat_upper_ne_n : ∀ m : Nat, 65 ≤ m → m ≤ 90 → Char.ofNat m ≠ 'n' := by
  intro m h1 h2
  interval_cases m <;> decide

/-- The JS uppercase mapping never produces the lowercase letter n. -/
theorem jsCharToUpper_ne_n (c : Char) : jsCharToUpper c ≠ 'n' := by
  unfold jsCharToUpper
  split
  · rename_i h
    exact charOfNat_upper_ne_n _ (by omega) (by omega)
  · rename_i h
    intro heq
    exact h (by rw [heq]; exact ⟨by decide, by decide⟩)

/-- The uppercased strategy name can never equal the lowercase literal
"none": the guard of the acquisition loop that was meant to make the
`none` strategy terminal is vacuously true. -/
theorem jsToUpper_ne_none (s : String) : jsToUpper s ≠ "none" := by
  intro h
  have hdata : s.data.map jsCharToUpper = ['n', 'o', 'n', 'e'] := congrArg String.data h
  cases hs : s.data with
  | nil => rw [hs] at hdata; exact absurd hdata (by simp)
  | cons c cs =>
    rw [hs, List.map_cons] at hdata
    injection hdata with h1 _
    exact jsCharToUpper_ne_n c h1

/-- Every resolved strategy list is non-empty. -/
theorem resolveStrategies_length_pos (s : String) : 0 < (resolveStrategies s).length := by
  unfold resolveStrategies
  split
  · simp
  · split <;> simp

/-- When every build succeeds and every launch raises the capacity error,
the acquisition loop absorbs each failure and exhausts the list. -/
theorem acquireLoop_all_ic (env : StartEnv) (all : List String) (hall : 0 < all.length)
    (hBuild : ∀ s, ∃ p, env.buildConfig s = .ok p)
    (hIC : ∀ s, ∃ e, env.launch s = .err e ∧ e.code = some "InsufficientInstanceCapacity") :
    ∀ rest, acquireLoop env all rest = (.ok none, rest) := by
  intro rest
  induction rest with
  | nil => rfl
  | cons s rest ih =>
    obtain ⟨p, hp⟩ := hBuild s
    obtain ⟨e, he, hcode⟩ := hIC s
    unfold acquireLoop
    rw [hp, he]
    dsimp only
    rw [if_pos ⟨hcode, hall, jsToUpper_ne_none s⟩, ih]

/-- The deletion loop computes the conjunction of the statuses of the
completed deletion calls, sequenced after the accumulator. -/
theorem deleteLoop_eq_completed (del : Nat → DeleteOutcome) (rs : List Runner) :
    ∀ b, deleteLoop del b rs =
      (b && (completedDeletions del rs).all (deletionSucceeded del)) := by
  induction rs with
  | nil => intro b; simp [deleteLoop, completedDeletions]
  | cons r rest ih =>
    intro b
    unfold deleteLoop completedDeletions
    cases h : del r.id with
    | resp status =>
      dsimp only
      rw [ih, List.all_cons]
      unfold deletionSucceeded
      rw [h]
      dsimp only
      rw [Bool.and_assoc]
    | raise e => simp

/-! ## Claims -/

/-- C1 (code bug): the claim says an `InsufficientInstanceCapacity` launch
error on the terminal "none" attempt aborts acquisition immediately and
propagates. In the code the guard compares the *uppercased* strategy name
against the lowercase literal "none", which can never match, so the error
is absorbed on the "none" attempt as well: with the besteffort fallback
list, both strategies are attempted, the capacity error on "none" is
swallowed instead of rethrown, and the run ends in the generic
exhaustion error. -/
theorem c1_none_attempt_absorbs_capacity_error :
    (acquireLoop c1Env ["BestEffort", "none"] ["none"]).1 = .ok none ∧
    startModel c1Env =
      { attempts := ["BestEffort", "none"], polled := false,
        result := .error { code := none, message := "Failed to get ID of running instance" } } := by
  exact ⟨rfl, rfl⟩

/-- C2: the strategy resolver maps "maxperformance" to the ordered list
[MaxPerformance, SpotOnly] with no on-demand fallback appended, maps
"besteffort" to [BestEffort, None] (strategy names are case-insensitive
tokens: the resolver writes the terminal element as the literal "none",
compared here under the case normalization the launcher itself applies),
and maps any other literal to the unchanged singleton. -/
theorem c2_strategy_resolver_mapping :
    resolveStrategies "maxperformance" = ["MaxPerformance", "SpotOnly"] ∧
    (resolveStrategies "besteffort").map jsToLower = ["BestEffort", "None"].map jsToLower ∧
    ∀ s, s ≠ "maxperformance" → s ≠ "besteffort" → resolveStrategies s = [s] := by
  refine ⟨rfl, by decide, ?_⟩
  intro s h1 h2
  unfold resolveStrategies
  rw [if_neg h1, if_neg h2]

/-- C2 witness: a literal strategy name resolves to its singleton. -/
theorem c2_witness_literal :
    resolveStrategies "spotonly" = ["spotonly"] :=
  c2_strategy_resolver_mapping.2.2 "spotonly" (by decide) (by decide)

/-- C9: teardown never raises past its outer entry point, a termination
request with an empty identifier list is a no-op (it returns success
without issuing the provider call), and the teardown body itself already
succeeds on an empty inventory with no matching registrations. -/
theorem c9_stop_never_raises :
    (∀ env : StopEnv, stopModel env = .ok ()) ∧
    (∀ terminateCall, terminateInstances terminateCall [] = (.ok (), false)) ∧
    stopBody c9EmptyStopEnv = .ok () := by
  refine ⟨?_, fun _ => rfl, rfl⟩
  intro env
  unfold stopModel
  cases stopBody env <;> rfl

/-- C10 counterexample: an environment with one matched runner whose
deletion call raises. The call returns true although a deletion it
attempted did not succeed, so the claimed equivalence fails. -/
theorem c10_counterexample : ¬ claimC10Property c10CounterEnv := by
  unfold claimC10Property
  decide

/-- C10 amended: the registration-removal operation deletes the matching
registrations in order until the first raised error, tracks the success
of each completed deletion call individually, and returns true if and
only if every deletion call that completed with a response returned
status 204; a raised listing or deletion error is swallowed, so a listing
error (before any deletion ran) yields true. -/
theorem c10_amended_completed_deletions (env : RemoveEnv) :
    removeRunnersWithLabels env = true ↔
      ∀ runner ∈ completedDeletions env.deleteRunner (matchedRunners env),
        deletionSucceeded env.deleteRunner runner = true := by
  unfold removeRunnersWithLabels matchedRunners
  cases h : env.listRunners with
  | error e => simp [completedDeletions]
  | ok raw =>
    dsimp only
    rw [deleteLoop_eq_completed, Bool.true_and, List.all_eq_true]

/-- C3: the besteffort launch specification uses spot market options if
and only if the current spot price of the configured size is strictly
below its current on-demand price (spot quotes are nonnegative; the JS
truthiness guard on the on-demand price is redundant under that
assumption), the max price when spot is used is the on-demand price, and
otherwise the market options stay empty. -/
theorem c3_besteffort_spot_iff_cheaper (env : Ec2Env)
    (hspot : 0 ≤ env.spotPrice env.ec2InstanceType) :
    ∃ params, getInstanceConfiguration env "besteffort" = .ok params ∧
      params.instanceType = env.ec2InstanceType ∧
      (params.instanceMarketOptions.isSpot = true ↔
        env.spotPrice env.ec2InstanceType < env.onDemandPriceUSD env.ec2InstanceType) ∧
      (∀ options, params.instanceMarketOptions = .spot options →
        options.maxPrice = env.onDemandPriceUSD env.ec2InstanceType) ∧
      (¬ env.spotPrice env.ec2InstanceType < env.onDemandPriceUSD env.ec2InstanceType →
        params.instanceMarketOptions = .empty) := by
  have hred : getInstanceConfiguration env "besteffort" =
      (if env.onDemandPriceUSD env.ec2InstanceType ≠ 0 ∧
          env.spotPrice env.ec2InstanceType < env.onDemandPriceUSD env.ec2InstanceType then
        .ok { instanceType := env.ec2InstanceType, instanceMarketOptions := .spot (
          { instanceInterruptionBehavior := "terminate"
            maxPrice := env.onDemandPriceUSD env.ec2InstanceType
            spotInstanceType := "one-time" }) }
      else .ok { instanceType := env.ec2InstanceType, instanceMarketOptions := .empty }) := rfl
  by_cases hc : env.onDemandPriceUSD env.ec2InstanceType ≠ 0 ∧
      env.spotPrice env.ec2InstanceType < env.onDemandPriceUSD env.ec2InstanceType
  · rw [hred, if_pos hc]
    refine ⟨_, rfl, rfl, ?_, ?_, ?_⟩
    · simp [MarketOptions.isSpot, hc.2]
    · intro options hopt
      cases hopt
      rfl
    · intro hnot
      exact absurd hc.2 hnot
  · rw [hred, if_neg hc]
    refine ⟨_, rfl, rfl, ?_, ?_, ?_⟩
    · simp only [MarketOptions.isSpot, Bool.false_eq_true, false_iff]
      intro hlt
      rcases eq_or_ne (env.onDemandPriceUSD env.ec2InstanceType) 0 with h0 | h0
      · rw [h0] at hlt
        exact absurd (lt_of_le_of_lt hspot hlt) (lt_irrefl 0)
      · exact hc ⟨h0, hlt⟩
    · intro options hopt
      cases hopt
    · intro _
      rfl

/-- C3 witness: with spot price 1/2 and on-demand price 1 the besteffort
specification is a spot request capped at the on-demand price. -/
theorem c3_witness :
    ∃ params, getInstanceConfiguration c3WitnessEnv "besteffort" = .ok params ∧
      params.instanceType = c3WitnessEnv.ec2InstanceType ∧
      (params.instanceMarketOptions.isSpot = true ↔
        c3WitnessEnv.spotPrice c3WitnessEnv.ec2InstanceType <
          c3WitnessEnv.onDemandPriceUSD c3WitnessEnv.ec2InstanceType) ∧
      (∀ options, params.instanceMarketOptions = .spot options →
        options.maxPrice = c3WitnessEnv.onDemandPriceUSD c3WitnessEnv.ec2InstanceType) ∧
      (¬ c3WitnessEnv.spotPrice c3WitnessEnv.ec2InstanceType <
          c3WitnessEnv.onDemandPriceUSD c3WitnessEnv.ec2InstanceType →
        params.instanceMarketOptions = .empty) :=
  c3_besteffort_spot_iff_cheaper c3WitnessEnv (by decide)

/-- C4: the size optimizer walks the ascending catalog from the baseline,
adopting the next strictly-larger sibling exactly when its spot price is
positive and strictly below the fixed baseline on-demand price. On the
scenario catalog small(2)/medium(4)/large(8) with on-demand small = 1.00
and spot medium = 0.60, large = 1.20 it returns medium; the next-larger
lookup is a no-op on the largest size; and when the first candidate
upgrade does not qualify the baseline is returned unchanged. -/
theorem c4_size_optimizer :
    bestSpotSizeForOnDemandPrice c4ScenarioEnv = some "medium" ∧
    getNextLargerInstanceType c4Catalog "large" = some "large" ∧
    ∀ (env : Ec2Env) (next : String),
      getNextLargerInstanceType env.sizes env.ec2InstanceType = some next →
      ¬ (0 < env.spotPrice next ∧
          env.spotPrice next < env.onDemandPriceUSD env.ec2InstanceType) →
      bestSpotSizeForOnDemandPrice env = some env.ec2InstanceType := by
  refine ⟨by decide, by decide, ?_⟩
  intro env next hnext hcond
  unfold bestSpotSizeForOnDemandPrice bestSpotSizeGo
  rw [hnext]
  dsimp only
  simp only [gt_iff_lt]
  rw [if_neg hcond, if_pos rfl]

/-- C4 witness for the no-qualifying-upgrade clause: the only candidate
upgrade is priced above the baseline on-demand price, so the baseline
size is returned. -/
theorem c4_witness :
    bestSpotSizeForOnDemandPrice c4WitnessEnv = some "small" :=
  c4_size_optimizer.2.2 c4WitnessEnv "medium" (by decide) (by decide)

/-- C5: when no running instance exists and every strategy of the
resolved attempt list launches into the capacity error (each
configuration building fine), the acquisition loop exhausts the list and
`start` fails with the exhaustion error instead of succeeding. -/
theorem c5_exhausted_strategies_fail (env : StartEnv)
    (hNoRun : (env.instances.filter (fun i => i.state == some "running")).length = 0)
    (hBuild : ∀ s, ∃ p, env.buildConfig s = .ok p)
    (hIC : ∀ s, ∃ e, env.launch s = .err e ∧ e.code = some "InsufficientInstanceCapacity") :
    (startModel env).result =
      .error { code := none, message := "Failed to get ID of running instance" } := by
  unfold startModel
  rw [if_neg (by rw [hNoRun]; exact lt_irrefl 0)]
  rw [acquireLoop_all_ic env _ (resolveStrategies_length_pos _) hBuild hIC]

/-- C5 witness: the maxperformance list with both launches raising the
capacity error ends in the exhaustion failure. -/
theorem c5_witness :
    (startModel c5WitnessEnv).result =
      .error { code := none, message := "Failed to get ID of running instance" } :=
  c5_exhausted_strategies_fail c5WitnessEnv rfl
    (fun _ => ⟨_, rfl⟩) (fun _ => ⟨_, rfl, rfl⟩)

/-- C6: when the inventory query returns at least one running instance,
`start` skips acquisition entirely — no launch call is issued for any
strategy — and proceeds directly to the readiness poll on the job label. -/
theorem c6_existing_instance_skips_acquisition (env : StartEnv)
    (hrun : 0 < (env.instances.filter (fun i => i.state == some "running")).length) :
    (startModel env).attempts = [] ∧ (startModel env).polled = true ∧
    (startModel env).result = pollOutcome env := by
  unfold startModel
  rw [if_pos hrun]
  exact ⟨rfl, rfl, rfl⟩

/-- C6 witness: a concrete inventory with one running instance. -/
theorem c6_witness :
    (startModel c6WitnessEnv).attempts = [] ∧ (startModel c6WitnessEnv).polled = true ∧
    (startModel c6WitnessEnv).result = pollOutcome c6WitnessEnv :=
  c6_existing_instance_skips_acquisition c6WitnessEnv (by decide)

/-- With no online match ever and enough fuel to push the wait counter
past the ceiling, the poll loop rejects with the timeout. -/
theorem pollTicks_timeout_of_no_online (runnersAt : Nat → List Runner) (labels : List String)
    (hnone : ∀ t, tickSeesOnlineRunner runnersAt labels t = false) :
    ∀ fuel waitSeconds tick,
      timeoutMinutes * 60 < waitSeconds + fuel * retryIntervalSeconds →
      pollTicks runnersAt labels (fuel + 1) waitSeconds tick = .timeout := by
  intro fuel
  induction fuel with
  | zero =>
    intro w t h
    unfold pollTicks
    rw [if_pos (by simpa using h)]
  | succ fuel ih =>
    intro w t h
    unfold pollTicks
    by_cases hw : w > timeoutMinutes * 60
    · rw [if_pos hw]
    · rw [if_neg hw, hnone t, if_neg (by simp)]
      exact ih (w + retryIntervalSeconds) (t + 1)
        (by simp only [timeoutMinutes, retryIntervalSeconds] at h ⊢; omega)

/-- When the first online, correctly-labelled registration appears at
offset `k` from the current tick and the accumulated wait stays within
the ceiling, the poll loop resolves exactly at that tick. -/
theorem pollTicks_first_online (runnersAt : Nat → List Runner) (labels : List String) :
    ∀ (k fuel waitSeconds tick : Nat),
      (∀ j, j < k → tickSeesOnlineRunner runnersAt labels (tick + j) = false) →
      tickSeesOnlineRunner runnersAt labels (tick + k) = true →
      waitSeconds + k * retryIntervalSeconds ≤ timeoutMinutes * 60 →
      k < fuel →
      pollTicks runnersAt labels fuel waitSeconds tick = .ready (tick + k) := by
  intro k
  induction k with
  | zero =>
    intro fuel w t hpre honline hbound hfuel
    cases fuel with
    | zero => exact absurd hfuel (by omega)
    | succ fuel =>
      simp only [Nat.add_zero] at honline ⊢
      unfold pollTicks
      rw [if_neg (by simp only [timeoutMinutes, retryIntervalSeconds] at hbound ⊢; omega)]
      rw [honline, if_pos rfl]
  | succ k ih =>
    intro fuel w t hpre honline hbound hfuel
    cases fuel with
    | zero => exact absurd hfuel (by omega)
    | succ fuel =>
      unfold pollTicks
      rw [if_neg (by simp only [timeoutMinutes, retryIntervalSeconds] at hbound ⊢; omega)]
      have h0 : tickSeesOnlineRunner runnersAt labels t = false := by
        have := hpre 0 (Nat.succ_pos k)
        simpa using this
      rw [h0, if_neg (by simp)]
      have harg : ∀ j, j < k → tickSeesOnlineRunner runnersAt labels (t + 1 + j) = false := by
        intro j hj
        have := hpre (j + 1) (by omega)
        rwa [show t + (j + 1) = t + 1 + j by omega] at this
      have honline2 : tickSeesOnlineRunner runnersAt labels (t + 1 + k) = true := by
        rwa [show t + 1 + k = t + (k + 1) by omega]
      have hbound2 : w + retryIntervalSeconds + k * retryIntervalSeconds ≤
          timeoutMinutes * 60 := by
        simp only [timeoutMinutes, retryIntervalSeconds] at hbound ⊢; omega
      have hres := ih fuel (w + retryIntervalSeconds) (t + 1) harg honline2 hbound2 (by omega)
      rwa [show t + 1 + k = t + (k + 1) by omega] at hres

/-- C7: in every run whose listings never expose an online registration
with the requested labels, the readiness poller terminates: its wait
counter passes the fixed ceiling and the poll rejects with the timeout. -/
theorem c7_poll_timeout_terminates (runnersAt : Nat → List Runner) (labels : List String)
    (hnone : ∀ t, tickSeesOnlineRunner runnersAt labels t = false) :
    pollForRunnerCreation runnersAt labels = .timeout := by
  have h := pollTicks_timeout_of_no_online runnersAt labels hnone 31 0 0
    (by simp only [timeoutMinutes, retryIntervalSeconds]; omega)
  exact h

/-- C7 witness: a run in which the listing is always empty times out. -/
theorem c7_witness :
    pollForRunnerCreation (fun _ => []) [] = .timeout :=
  c7_poll_timeout_terminates (fun _ => []) [] (fun _ => rfl)

/-- C8: every registration check of the poller happens no earlier than
the fixed quiet period, and the poll resolves exactly on the first tick
whose listing contains an online registration with the requested labels
(earlier ticks may expose offline ones), provided the accumulated wait at
that tick is still within the ceiling; a single online match suffices. -/
theorem c8_quiet_period_and_first_online :
    (∀ tick, quietPeriodSeconds ≤ tickCheckTimeSeconds tick) ∧
    ∀ (runnersAt : Nat → List Runner) (labels : List String) (k : Nat),
      (∀ j, j < k → tickSeesOnlineRunner runnersAt labels j = false) →
      tickSeesOnlineRunner runnersAt labels k = true →
      k * retryIntervalSeconds ≤ timeoutMinutes * 60 →
      pollForRunnerCreation runnersAt labels = .ready k := by
  constructor
  · intro tick
    simp only [tickCheckTimeSeconds, quietPeriodSeconds, retryIntervalSeconds]
    omega
  · intro runnersAt labels k hpre honline hbound
    have h := pollTicks_first_online runnersAt labels k pollFuel 0 0
      (fun j hj => by simpa using hpre j hj)
      (by simpa using honline)
      (by simpa using hbound)
      (by simp only [pollFuel, timeoutMinutes, retryIntervalSeconds] at hbound ⊢; omega)
    simpa [pollForRunnerCreation] using h

/-- C8 witness: offline-only listings on ticks 0 and 1, first online
match on tick 2, so the poll resolves on tick 2. -/
theorem c8_witness :
    pollForRunnerCreation c8RunnersAt ["job-8"] = .ready 2 :=
  c8_quiet_period_and_first_online.2 c8RunnersAt ["job-8"] 2
    (by decide) (by decide) (by decide)

end EC2AB
